import Mathlib

/-!
# Feature matrix generator of dnscontrol (`build/generate/featureMatrix.go`)

A shallow embedding of `generateFeatureMatrix`, `FeatureMap.SetSimple` and of the
table cell of the HTML template `tmpl`, followed by theorems about them.

Conventions of the embedding

* A Go `map[K]V` is an association list with at most one meaningful entry per key:
  reading takes the first entry of a key, storing replaces the entry of the key or
  appends a new one.  The order of the list stands for the (unspecified) order in
  which `range` visits the map.
* A Go value that can be `nil` (a pointer, a func) is an `Option`; `none` is `nil`.
  Indexing a map of such values gives `nil` for a missing key, as in Go.
* Go strings are Lean strings.  `sort.Strings` orders by bytes; on UTF-8 text this
  is the lexicographic order of the code points, which `goStringLe` computes on the
  list of characters.
* The package `providers` is not part of the embedded file: its registries
  (`RegistrarTypes`, `DNSProviderTypes`, `Notes`) and `ProviderHasCabability` are
  parameters of the embedding.
-/

namespace FeatureMatrixGen

/-! ## Go maps -/

/-- Go map with keys `κ` and values `υ`, as an association list. -/
abbrev GoMap (κ υ : Type) := List (κ × υ)

/-- Value stored under `k`, or `none` when `k` is not a key (`v, ok := m[k]`). -/
def mapLookup {κ υ : Type} [DecidableEq κ] : GoMap κ υ → κ → Option υ
  | [], _ => none
  | (k', v) :: m, k => if k' = k then some v else mapLookup m k

/-- Index expression `m[k]` of a map whose values can be nil: nil for a missing key. -/
def mapIndex {κ υ : Type} [DecidableEq κ] (m : GoMap κ (Option υ)) (k : κ) : Option υ :=
  (mapLookup m k).join

/-- Assignment `m[k] = v`: replaces the value of `k`, or adds the key. -/
def mapStore {κ υ : Type} [DecidableEq κ] : GoMap κ υ → κ → υ → GoMap κ υ
  | [], k, v => [(k, v)]
  | (k', v') :: m, k, v => if k' = k then (k', v) :: m else (k', v') :: mapStore m k v

/-- Keys of a map, in the order `range` visits them. -/
def mapKeys {κ υ : Type} (m : GoMap κ υ) : List κ := m.map Prod.fst

/-! ## Types of package `providers` used by the generator -/

/-- Modelled from the spec: the type `providers.Capability` (its declaration is not in
the embedded file).  The eight constants the generator names are distinct values;
`other` stands for every further capability a provider may document. -/
inductive Capability where
  | CanUseAlias
  | CanUsePTR
  | CanUseSRV
  | CanUseCAA
  | DocDualHost
  | DocCreateDomains
  | DocOfficiallySupported
  | CantUseNOPURGE
  | other (n : Nat)
deriving DecidableEq, Repr

/-- Modelled from the spec: the struct `providers.DocumentationNote` (its declaration is
not in the embedded file), with the two fields the generator and the template read: the
Go `bool` `HasFeature` and the string `Comment`. -/
structure DocumentationNote where
  HasFeature : Bool
  Comment : String
deriving DecidableEq, Repr

/-- Go type `providers.DocumentationNotes`, `map[Capability]*DocumentationNote`. -/
abbrev DocumentationNotes := GoMap Capability (Option DocumentationNote)

/-- Registry of provider types: name to initializer, a func value that can be nil.
The initializer type `ι` is never called by the generator. -/
abbrev ProviderTypes (ι : Type) := GoMap String (Option ι)

/-- Everything the generator reads from package `providers`. -/
structure Registry (ρ δ : Type) where
  /-- Variable `providers.RegistrarTypes`. -/
  RegistrarTypes : ProviderTypes ρ
  /-- Variable `providers.DNSProviderTypes`. -/
  DNSProviderTypes : ProviderTypes δ
  /-- Variable `providers.Notes`, `map[string]DocumentationNotes` (a nil map is `none`). -/
  Notes : GoMap String (Option DocumentationNotes)
  /-- Function `providers.ProviderHasCabability`. -/
  ProviderHasCabability : String → Capability → Bool

/-! ## Types of the generator -/

/-- Go struct `FeatureDef`. -/
structure FeatureDef where
  Name : String
  Desc : String
deriving DecidableEq, Repr

/-- Go type `FeatureMap`, `map[string]*providers.DocumentationNote`.  The generator
stores only non-nil pointers, so the values are notes. -/
abbrev FeatureMap := GoMap String DocumentationNote

/-- Go struct `FeatureMatrix`. -/
structure FeatureMatrix where
  Features : List FeatureDef
  Providers : GoMap String FeatureMap
deriving DecidableEq, Repr

/-- Method `FeatureMap.SetSimple`. -/
def FeatureMap.SetSimple (fm : FeatureMap) (name : String) (unknownsAllowed : Bool)
    (f : Unit → Bool) : FeatureMap :=
  if f () then
    mapStore fm name { HasFeature := true, Comment := "" }
  else if !unknownsAllowed then
    mapStore fm name { HasFeature := false, Comment := "" }
  else
    fm

/-- Closure `setCap` of `generateFeatureMatrix`, with the variables it captures
(`fm`, `notes`, `p`) as arguments. -/
def setCap (probe : String → Capability → Bool) (notes : DocumentationNotes) (p : String)
    (fm : FeatureMap) (name : String) (cap : Capability) : FeatureMap :=
  match mapIndex notes cap with
  | some note => mapStore fm name note
  | none => FeatureMap.SetSimple fm name true (fun _ => probe p cap)

/-- Closure `setDoc` of `generateFeatureMatrix`. -/
def setDoc (notes : DocumentationNotes) (fm : FeatureMap) (name : String)
    (cap : Capability) : FeatureMap :=
  match mapIndex notes cap with
  | some note => mapStore fm name note
  | none => fm

/-- The list literal assigned to `matrix.Features`. -/
def featureDefs : List FeatureDef :=
  [ ⟨"Official Support", "This means the provider is actively used at Stack Exchange, bugs are more likely to be fixed, and failing integration tests will block a release. See below for details"⟩,
    ⟨"Registrar", "The provider has registrar capabilities to set nameservers for zones"⟩,
    ⟨"DNS Provider", "Can manage and serve DNS zones"⟩,
    ⟨"ALIAS", "Provider supports some kind of ALIAS, ANAME or flattened CNAME record type"⟩,
    ⟨"SRV", "Driver has explicitly implemented SRV record management"⟩,
    ⟨"PTR", "Provider supports adding PTR records for reverse lookup zones"⟩,
    ⟨"CAA", "Provider can manage CAA records"⟩,
    ⟨"dual host", "This provider is recommended for use in 'dual hosting' scenarios. Usually this means the provider allows full control over the apex NS records"⟩,
    ⟨"create-domains", "This means the provider can automatically create domains that do not currently exist on your account. The 'dnscontrol create-domains' command will initialize any missing domains"⟩,
    ⟨"no_purge", "indicates you can use NO_PURGE macro to prevent deleting records not managed by dnscontrol. A few providers that generate the entire zone from scratch have a problem implementing this."⟩ ]

/-- Go comparison `a <= b` of two strings: lexicographic, character by character. -/
def goStringLe (a b : String) : Prop := a.data ≤ b.data

instance goStringLe.decidable : DecidableRel goStringLe :=
  fun a b => inferInstanceAs (Decidable (a.data ≤ b.data))

/-- Library function `sort.Strings`: the slice in increasing order. -/
def sortStrings (s : List String) : List String := s.insertionSort goStringLe

/-- Lines 14 to 20: the set `allNames` after the two loops over the registries. -/
def allNames {ρ δ : Type} (R : Registry ρ δ) : GoMap String Bool :=
  let allNames : GoMap String Bool := []
  let allNames := (mapKeys R.RegistrarTypes).foldl (fun m n => mapStore m n true) allNames
  (mapKeys R.DNSProviderTypes).foldl (fun m n => mapStore m n true) allNames

/-- Lines 21 to 25: the slice `providerTypes`, filled from `allNames` and sorted. -/
def providerTypes {ρ δ : Type} (R : Registry ρ δ) : List String :=
  let providerTypes : List String := []
  let providerTypes := (mapKeys (allNames R)).foldl (fun s n => s ++ [n]) providerTypes
  sortStrings providerTypes

/-- Lines 47 to 50: the variable `notes` of provider `p`, an empty map when
`providers.Notes[p]` is nil. -/
def providerNotes {ρ δ : Type} (R : Registry ρ δ) (p : String) : DocumentationNotes :=
  match mapIndex R.Notes p with
  | some notes => notes
  | none => []

/-- Lines 46 to 79: the feature map `fm` built in one pass of the loop for a provider
`p` other than `"NONE"`. -/
def providerFeatureMap {ρ δ : Type} (R : Registry ρ δ) (p : String) : FeatureMap :=
  let fm : FeatureMap := []
  let notes := providerNotes R p
  let fm := setDoc notes fm "Official Support" Capability.DocOfficiallySupported
  let fm := FeatureMap.SetSimple fm "Registrar" false
    (fun _ => (mapIndex R.RegistrarTypes p).isSome)
  let fm := FeatureMap.SetSimple fm "DNS Provider" false
    (fun _ => (mapIndex R.DNSProviderTypes p).isSome)
  let fm := setCap R.ProviderHasCabability notes p fm "ALIAS" Capability.CanUseAlias
  let fm := setCap R.ProviderHasCabability notes p fm "SRV" Capability.CanUseSRV
  let fm := setCap R.ProviderHasCabability notes p fm "PTR" Capability.CanUsePTR
  let fm := setCap R.ProviderHasCabability notes p fm "CAA" Capability.CanUseCAA
  let fm := setDoc notes fm "dual host" Capability.DocDualHost
  let fm := setDoc notes fm "create-domains" Capability.DocCreateDomains
  let cap := Capability.CantUseNOPURGE
  match mapIndex notes cap with
  | some note => mapStore fm "no_purge" note
  | none => FeatureMap.SetSimple fm "no_purge" false
      (fun _ => !R.ProviderHasCabability p cap)

/-- Lines 42 to 81: one pass of the loop over `providerTypes`. -/
def loopBody {ρ δ : Type} (R : Registry ρ δ) (matrix : FeatureMatrix) (p : String) :
    FeatureMatrix :=
  if p = "NONE" then matrix
  else { matrix with Providers := mapStore matrix.Providers p (providerFeatureMap R p) }

/-- Lines 14 to 81 of `generateFeatureMatrix`: the matrix handed to the template. -/
def buildMatrix {ρ δ : Type} (R : Registry ρ δ) : FeatureMatrix :=
  let matrix : FeatureMatrix := { Providers := [], Features := featureDefs }
  (providerTypes R).foldl (loopBody R) matrix

/-- Lines 82 to 87 of `generateFeatureMatrix`, over its two collaborators:
`execute` is `tmpl.Execute` (the contents of `buf` when it returns, and its error) and
`writeFile` is `ioutil.WriteFile` acting on the state `ω` of the file system (the new
state, and its error).  The result is the new state and the returned error. -/
def generateFeatureMatrix {ρ δ ε ω : Type} (R : Registry ρ δ)
    (execute : FeatureMatrix → String × Option ε)
    (writeFile : String → String → Nat → ω → ω × Option ε) (world : ω) : ω × Option ε :=
  let matrix := buildMatrix R
  let (buf, err) := execute matrix
  match err with
  | some e => (world, some e)
  | none => writeFile "docs/_includes/matrix.html" buf 0o644 world

/-- Table cell of `tmpl` (lines 125 to 131) for the value `$f := index $features $name`;
`esc` is the escaping `html/template` applies to `$f.Comment` inside the attribute
`title`.  White space next to `{{-` and `-}}` is trimmed as the template engine does. -/
def renderCell (esc : String → String) (f : Option DocumentationNote) : String :=
  match f with
  | some f =>
    "<td class=\"" ++ (if f.HasFeature then "success" else "danger") ++ "\""
      ++ (if f.Comment ≠ "" then
            " data-toggle=\"tooltip\" data-container=\"body\" data-placement=\"top\" title=\""
              ++ esc f.Comment ++ "\""
          else "")
      ++ ">\n\t\t\t<i class=\"fa " ++ (if f.Comment ≠ "" then "has-tooltip " else "")
      ++ (if f.HasFeature then "fa-check text-success" else "fa-times text-danger")
      ++ "\" aria-hidden=\"true\"></i>\n\t\t</td>"
  | none => "<td><i class=\"fa fa-minus dim\"></i></td>"

/-- The dash cell of the template, written when the feature map has no entry. -/
def dashCell : String := "<td><i class=\"fa fa-minus dim\"></i></td>"

/-- The calls of `setCap` (lines 66 to 69): feature name and underlying capability. -/
def capBackedFeatures : List (String × Capability) :=
  [("ALIAS", Capability.CanUseAlias), ("SRV", Capability.CanUseSRV),
   ("PTR", Capability.CanUsePTR), ("CAA", Capability.CanUseCAA)]

/-- The calls of `setDoc` (lines 63, 70 and 71): feature name and capability. -/
def docOnlyFeatures : List (String × Capability) :=
  [("Official Support", Capability.DocOfficiallySupported),
   ("dual host", Capability.DocDualHost),
   ("create-domains", Capability.DocCreateDomains)]

/-- Lines 21 to 81 when `range allNames` visits the names in the order `order`: the
slice is filled in that order, sorted, and the loop runs over it.  `buildMatrix` is the
case in which the names are visited in the order of their insertion. -/
def buildMatrixVisiting {ρ δ : Type} (R : Registry ρ δ) (order : List String) :
    FeatureMatrix :=
  let providerTypes : List String := []
  let providerTypes := order.foldl (fun s n => s ++ [n]) providerTypes
  let providerTypes := sortStrings providerTypes
  let matrix : FeatureMatrix := { Providers := [], Features := featureDefs }
  providerTypes.foldl (loopBody R) matrix

/-- Every call that can store a note: those of `setCap`, those of `setDoc`, and the
assignment of the note for `CantUseNOPURGE` at line 76. -/
def noteBackedFeatures : List (String × Capability) :=
  capBackedFeatures ++ docOnlyFeatures ++ [("no_purge", Capability.CantUseNOPURGE)]

/-- The check cell of the template: it opens with the class `success` and closes with
the icon `fa-check`. -/
def isCheckCell (s : String) : Prop :=
  "<td class=\"success\"".data <+: s.data ∧
  "fa-check text-success\" aria-hidden=\"true\"></i>\n\t\t</td>".data <:+ s.data

/-- The cross cell of the template: it opens with the class `danger` and closes with
the icon `fa-times`. -/
def isCrossCell (s : String) : Prop :=
  "<td class=\"danger\"".data <+: s.data ∧
  "fa-times text-danger\" aria-hidden=\"true\"></i>\n\t\t</td>".data <:+ s.data

/-- The attributes of the tooltip, up to the opening quote of `title`, occur in `s`. -/
def hasTooltip (s : String) : Prop :=
  " data-toggle=\"tooltip\" data-container=\"body\" data-placement=\"top\" title=\"".data
    <:+: s.data

/-! ## Concrete registries -/

/-- A registry with the sentinel `"NONE"`, a provider of both kinds (`"Zed"`), a DNS
provider without notes (`"Foo"`) and a DNS provider with notes (`"Bar"`). -/
def sampleRegistry : Registry Unit Unit where
  RegistrarTypes := [("NONE", some ()), ("Zed", some ())]
  DNSProviderTypes := [("Foo", some ()), ("Zed", some ()), ("Bar", some ())]
  Notes :=
    [("Bar", some
        [(Capability.CanUseSRV, some { HasFeature := false, Comment := "planned" }),
         (Capability.DocDualHost, some { HasFeature := true, Comment := "apex NS editable" }),
         (Capability.CantUseNOPURGE, some { HasFeature := true, Comment := "see docs" })])]
  ProviderHasCabability := fun p cap =>
    decide (p = "Foo") && (decide (cap = Capability.CanUseSRV)
      || decide (cap = Capability.CantUseNOPURGE))
    || decide (p = "Bar") && decide (cap = Capability.CanUseSRV)

/-- A registry in which `"Acme"` is a key of `RegistrarTypes` with a nil initializer. -/
def nilInitializerRegistry : Registry Unit Unit where
  RegistrarTypes := [("Acme", none)]
  DNSProviderTypes := [("Acme", some ())]
  Notes := []
  ProviderHasCabability := fun _ _ => false

/-- A registry with the single DNS provider `"Foo"`, no notes, and no capability. -/
def silentRegistry : Registry Unit Unit where
  RegistrarTypes := []
  DNSProviderTypes := [("Foo", some ())]
  Notes := []
  ProviderHasCabability := fun _ _ => false

/-- The provider `"Foo"` of the example of the specification: a DNS provider and no
registrar, without notes, that can use SRV, cannot use PTR and cannot use NO_PURGE. -/
def fooRegistry : Registry Unit Unit where
  RegistrarTypes := []
  DNSProviderTypes := [("Foo", some ())]
  Notes := []
  ProviderHasCabability := fun _ cap =>
    decide (cap = Capability.CanUseSRV) || decide (cap = Capability.CantUseNOPURGE)

/-- A registry whose provider `"Foo"` has a note for `CanUseSRV` with the boolean left
at its zero value and no comment, while the probe of SRV answers true. -/
def pendingNoteRegistry : Registry Unit Unit where
  RegistrarTypes := []
  DNSProviderTypes := [("Foo", some ())]
  Notes := [("Foo", some [(Capability.CanUseSRV, some { HasFeature := false, Comment := "" })])]
  ProviderHasCabability := fun _ _ => true

/-- The maps of `sampleRegistry`, each visited in another order. -/
def shuffledRegistry : Registry Unit Unit where
  RegistrarTypes := [("Zed", some ()), ("NONE", some ())]
  DNSProviderTypes := [("Bar", some ()), ("Zed", some ()), ("Foo", some ())]
  Notes :=
    [("Bar", some
        [(Capability.CantUseNOPURGE, some { HasFeature := true, Comment := "see docs" }),
         (Capability.CanUseSRV, some { HasFeature := false, Comment := "planned" }),
         (Capability.DocDualHost, some { HasFeature := true, Comment := "apex NS editable" })])]
  ProviderHasCabability := sampleRegistry.ProviderHasCabability

/-- Rendering that fails with error `7` after a first piece of output. -/
def failingExecute (_ : FeatureMatrix) : String × Option Nat := ("<table", some 7)

/-- Rendering that succeeds: the provider names, separated by commas. -/
def okExecute (m : FeatureMatrix) : String × Option Nat :=
  (String.intercalate "," (mapKeys m.Providers), none)

/-- File system as the list of files written so far; the write of an empty path fails. -/
def logWriteFile (path data : String) (perm : Nat) (world : List (String × String × Nat)) :
    List (String × String × Nat) × Option Nat :=
  if path = "" then (world, some 2) else (world ++ [(path, data, perm)], none)

/-! ## Go maps: reading after storing -/

section GoMapLemmas

variable {κ υ : Type} [DecidableEq κ]

theorem mapLookup_mapStore (m : GoMap κ υ) (k k' : κ) (v : υ) :
    mapLookup (mapStore m k v) k' = if k = k' then some v else mapLookup m k' := by
  induction m with
  | nil => simp [mapStore, mapLookup]
  | cons e m ih =>
    obtain ⟨a, b⟩ := e
    by_cases h : a = k
    · subst h
      by_cases h' : a = k' <;> simp [mapStore, mapLookup, h']
    · by_cases h' : a = k'
      · subst h'
        simp [mapStore, mapLookup, h, Ne.symm h]
      · simp [mapStore, mapLookup, h, h', ih]

theorem mem_mapKeys_iff_isSome (m : GoMap κ υ) (k : κ) :
    k ∈ mapKeys m ↔ (mapLookup m k).isSome = true := by
  induction m with
  | nil => simp [mapKeys, mapLookup]
  | cons e m ih =>
    obtain ⟨a, b⟩ := e
    by_cases h : a = k
    · simp [mapKeys, mapLookup, h]
    · have ih' : k ∈ List.map Prod.fst m ↔ (mapLookup m k).isSome = true := ih
      simp [mapKeys, mapLookup, h, Ne.symm h, ih']

theorem mem_mapKeys_mapStore (m : GoMap κ υ) (k k' : κ) (v : υ) :
    k' ∈ mapKeys (mapStore m k v) ↔ k' = k ∨ k' ∈ mapKeys m := by
  rw [mem_mapKeys_iff_isSome, mem_mapKeys_iff_isSome, mapLookup_mapStore]
  by_cases h : k = k'
  · simp [h]
  · simp [h, Ne.symm h]

theorem nodup_mapKeys_mapStore (m : GoMap κ υ) (k : κ) (v : υ)
    (h : (mapKeys m).Nodup) : (mapKeys (mapStore m k v)).Nodup := by
  induction m with
  | nil => simp [mapStore, mapKeys]
  | cons e m ih =>
    obtain ⟨a, b⟩ := e
    have hm : a ∉ mapKeys m ∧ (mapKeys m).Nodup := by
      simpa [mapKeys] using h
    by_cases hk : a = k
    · simpa [mapStore, hk, mapKeys] using h
    · have h1 : a ∉ mapKeys (mapStore m k v) := by
        rw [mem_mapKeys_mapStore]
        rintro (h2 | h2)
        · exact hk h2
        · exact hm.1 h2
      have h2 := ih hm.2
      simp only [mapStore, hk, if_false]
      simp only [mapKeys, List.map_cons, List.nodup_cons]
      exact ⟨h1, h2⟩

theorem mapIndex_eq_some_mem_mapKeys (m : GoMap κ (Option υ)) (k : κ) (v : υ)
    (h : mapIndex m k = some v) : k ∈ mapKeys m := by
  rw [mem_mapKeys_iff_isSome]
  unfold mapIndex at h
  cases hl : mapLookup m k with
  | none => simp [hl] at h
  | some x => simp

end GoMapLemmas

/-! ## The steps that fill one feature map -/

theorem mapLookup_SetSimple (fm : FeatureMap) (name k : String) (u : Bool) (f : Unit → Bool) :
    mapLookup (FeatureMap.SetSimple fm name u f) k =
      if name = k then
        (if f () then some { HasFeature := true, Comment := "" }
         else if u then mapLookup fm k else some { HasFeature := false, Comment := "" })
      else mapLookup fm k := by
  unfold FeatureMap.SetSimple
  by_cases hf : f () = true <;> cases u <;> by_cases hk : name = k <;>
    simp [hf, hk, mapLookup_mapStore]

theorem mapLookup_setDoc (notes : DocumentationNotes) (fm : FeatureMap) (name k : String)
    (cap : Capability) :
    mapLookup (setDoc notes fm name cap) k =
      if name = k then
        (match mapIndex notes cap with
         | some note => some note
         | none => mapLookup fm k)
      else mapLookup fm k := by
  unfold setDoc
  cases mapIndex notes cap <;> by_cases hk : name = k <;> simp [hk, mapLookup_mapStore]

theorem mapLookup_setCap (probe : String → Capability → Bool) (notes : DocumentationNotes)
    (p : String) (fm : FeatureMap) (name k : String) (cap : Capability) :
    mapLookup (setCap probe notes p fm name cap) k =
      if name = k then
        (match mapIndex notes cap with
         | some note => some note
         | none => if probe p cap then some { HasFeature := true, Comment := "" }
                   else mapLookup fm k)
      else mapLookup fm k := by
  unfold setCap
  cases mapIndex notes cap <;> by_cases hk : name = k <;>
    simp [hk, mapLookup_mapStore, mapLookup_SetSimple]

/-! ## The loop over the provider names -/

section Loop

variable {ρ δ : Type} (R : Registry ρ δ)

theorem foldl_append_singleton (l s : List String) :
    l.foldl (fun s n => s ++ [n]) s = s ++ l := by
  induction l generalizing s with
  | nil => simp
  | cons a l ih => simp [ih]

theorem mem_mapKeys_foldl_mapStore (l : List String) (m : GoMap String Bool) (n : String) :
    n ∈ mapKeys (l.foldl (fun m n => mapStore m n true) m) ↔ n ∈ l ∨ n ∈ mapKeys m := by
  induction l generalizing m with
  | nil => simp
  | cons a l ih =>
    simp only [List.foldl_cons, ih, mem_mapKeys_mapStore, List.mem_cons]
    tauto

theorem nodup_mapKeys_foldl_mapStore (l : List String) (m : GoMap String Bool)
    (h : (mapKeys m).Nodup) :
    (mapKeys (l.foldl (fun m n => mapStore m n true) m)).Nodup := by
  induction l generalizing m with
  | nil => simpa using h
  | cons a l ih => exact ih _ (nodup_mapKeys_mapStore m a true h)

theorem mem_allNames (n : String) :
    n ∈ mapKeys (allNames R) ↔ n ∈ mapKeys R.RegistrarTypes ∨ n ∈ mapKeys R.DNSProviderTypes := by
  simp only [allNames, mem_mapKeys_foldl_mapStore]
  simp [mapKeys]
  tauto

theorem mem_providerTypes (n : String) :
    n ∈ providerTypes R ↔ n ∈ mapKeys R.RegistrarTypes ∨ n ∈ mapKeys R.DNSProviderTypes := by
  simp only [providerTypes, sortStrings, foldl_append_singleton, List.nil_append,
    List.mem_insertionSort, mem_allNames]

theorem loop_Features (ps : List String) (m : FeatureMatrix) :
    (ps.foldl (loopBody R) m).Features = m.Features := by
  induction ps generalizing m with
  | nil => rfl
  | cons a ps ih =>
    rw [List.foldl_cons, ih]
    unfold loopBody
    split <;> rfl

theorem loop_Providers_lookup (ps : List String) (m : FeatureMatrix) (p : String) :
    mapLookup (ps.foldl (loopBody R) m).Providers p =
      if p ∈ ps ∧ p ≠ "NONE" then some (providerFeatureMap R p)
      else mapLookup m.Providers p := by
  induction ps generalizing m with
  | nil => simp
  | cons a ps ih =>
    rw [List.foldl_cons, ih]
    by_cases h1 : p ∈ ps ∧ p ≠ "NONE"
    · have h2 : p ∈ a :: ps ∧ p ≠ "NONE" := ⟨List.mem_cons_of_mem _ h1.1, h1.2⟩
      rw [if_pos h1, if_pos h2]
    · rw [if_neg h1]
      unfold loopBody
      by_cases ha : a = "NONE"
      · have h2 : ¬ (p ∈ a :: ps ∧ p ≠ "NONE") := by
          rintro ⟨h3, h4⟩
          rcases List.mem_cons.1 h3 with h5 | h5
          · exact h4 (h5.trans ha)
          · exact h1 ⟨h5, h4⟩
        rw [if_pos ha, if_neg h2]
      · rw [if_neg ha]
        simp only [mapLookup_mapStore]
        by_cases hp : a = p
        · subst hp
          simp [ha]
        · have h2 : ¬ (p ∈ a :: ps ∧ p ≠ "NONE") := by
            rintro ⟨h3, h4⟩
            rcases List.mem_cons.1 h3 with h5 | h5
            · exact hp h5.symm
            · exact h1 ⟨h5, h4⟩
          rw [if_neg hp, if_neg h2]

theorem loop_Providers_nodup (ps : List String) (m : FeatureMatrix)
    (h : (mapKeys m.Providers).Nodup) :
    (mapKeys (ps.foldl (loopBody R) m).Providers).Nodup := by
  induction ps generalizing m with
  | nil => simpa using h
  | cons a ps ih =>
    rw [List.foldl_cons]
    apply ih
    unfold loopBody
    split
    · exact h
    · exact nodup_mapKeys_mapStore _ _ _ h

/-- Reading the provider map of the built matrix: the providers are the names of the two
registries other than `"NONE"`, each with the feature map of its pass of the loop. -/
theorem buildMatrix_Providers_lookup (p : String) :
    mapLookup (buildMatrix R).Providers p =
      if (p ∈ mapKeys R.RegistrarTypes ∨ p ∈ mapKeys R.DNSProviderTypes) ∧ p ≠ "NONE" then
        some (providerFeatureMap R p)
      else none := by
  unfold buildMatrix
  simp only [loop_Providers_lookup, mem_providerTypes, mapLookup]

theorem buildMatrix_Providers_eq_some (p : String) (fm : FeatureMap)
    (h : mapLookup (buildMatrix R).Providers p = some fm) :
    fm = providerFeatureMap R p := by
  rw [buildMatrix_Providers_lookup] at h
  split at h
  · exact (Option.some.inj h).symm
  · exact absurd h (by simp)

end Loop

/-! ## The feature map of one provider -/

section OneProvider

variable {ρ δ : Type} (R : Registry ρ δ)

theorem mapLookup_noPurgeStep (notes : DocumentationNotes) (probe : String → Capability → Bool)
    (p : String) (fm : FeatureMap) (k : String) :
    mapLookup
        (match mapIndex notes Capability.CantUseNOPURGE with
         | some note => mapStore fm "no_purge" note
         | none => FeatureMap.SetSimple fm "no_purge" false
             (fun _ => !probe p Capability.CantUseNOPURGE)) k =
      if "no_purge" = k then
        (match mapIndex notes Capability.CantUseNOPURGE with
         | some note => some note
         | none => some { HasFeature := !probe p Capability.CantUseNOPURGE, Comment := "" })
      else mapLookup fm k := by
  cases mapIndex notes Capability.CantUseNOPURGE <;> by_cases hk : "no_purge" = k <;>
    simp [hk, mapLookup_mapStore, mapLookup_SetSimple]
  cases probe p Capability.CantUseNOPURGE <;> simp

theorem providerFeatureMap_Registrar (p : String) :
    mapLookup (providerFeatureMap R p) "Registrar" =
      some { HasFeature := (mapIndex R.RegistrarTypes p).isSome, Comment := "" } := by
  simp only [providerFeatureMap, mapLookup_noPurgeStep, mapLookup_setCap, mapLookup_setDoc,
    mapLookup_SetSimple]
  simp [mapLookup]
  cases (mapIndex R.RegistrarTypes p).isSome <;> simp

theorem providerFeatureMap_DNSProvider (p : String) :
    mapLookup (providerFeatureMap R p) "DNS Provider" =
      some { HasFeature := (mapIndex R.DNSProviderTypes p).isSome, Comment := "" } := by
  simp only [providerFeatureMap, mapLookup_noPurgeStep, mapLookup_setCap, mapLookup_setDoc,
    mapLookup_SetSimple]
  simp [mapLookup]
  cases (mapIndex R.DNSProviderTypes p).isSome <;> simp

theorem providerFeatureMap_capBacked (p name : String) (cap : Capability)
    (hf : (name, cap) ∈ capBackedFeatures) :
    mapLookup (providerFeatureMap R p) name =
      match mapIndex (providerNotes R p) cap with
      | some note => some note
      | none =>
        if R.ProviderHasCabability p cap then some { HasFeature := true, Comment := "" }
        else none := by
  simp only [capBackedFeatures, List.mem_cons, List.mem_singleton, Prod.mk.injEq,
    List.not_mem_nil, or_false] at hf
  rcases hf with ⟨rfl, rfl⟩ | ⟨rfl, rfl⟩ | ⟨rfl, rfl⟩ | ⟨rfl, rfl⟩ <;>
    simp only [providerFeatureMap, mapLookup_noPurgeStep, mapLookup_setCap, mapLookup_setDoc,
      mapLookup_SetSimple] <;>
    simp [mapLookup]

theorem providerFeatureMap_docOnly (p name : String) (cap : Capability)
    (hf : (name, cap) ∈ docOnlyFeatures) :
    mapLookup (providerFeatureMap R p) name = mapIndex (providerNotes R p) cap := by
  simp only [docOnlyFeatures, List.mem_cons, List.mem_singleton, Prod.mk.injEq,
    List.not_mem_nil, or_false] at hf
  rcases hf with ⟨rfl, rfl⟩ | ⟨rfl, rfl⟩ | ⟨rfl, rfl⟩ <;>
    simp only [providerFeatureMap, mapLookup_noPurgeStep, mapLookup_setCap, mapLookup_setDoc,
      mapLookup_SetSimple] <;>
    simp [mapLookup] <;>
    split <;> simp_all

theorem providerFeatureMap_noPurge (p : String) :
    mapLookup (providerFeatureMap R p) "no_purge" =
      match mapIndex (providerNotes R p) Capability.CantUseNOPURGE with
      | some note => some note
      | none =>
        some { HasFeature := !R.ProviderHasCabability p Capability.CantUseNOPURGE,
               Comment := "" } := by
  simp only [providerFeatureMap, mapLookup_noPurgeStep, mapLookup_setCap, mapLookup_setDoc,
    mapLookup_SetSimple]
  simp

theorem mapIndex_isSome_of_nonnil {υ : Type} (m : GoMap String (Option υ))
    (h : ∀ e ∈ m, e.2 ≠ none) (k : String) :
    (mapIndex m k).isSome = decide (k ∈ mapKeys m) := by
  induction m with
  | nil => simp [mapIndex, mapLookup, mapKeys]
  | cons e m ih =>
    obtain ⟨a, b⟩ := e
    have hb : b ≠ none := h (a, b) (List.mem_cons_self _ _)
    have ih' := ih (fun e he => h e (List.mem_cons_of_mem _ he))
    by_cases hk : a = k
    · obtain ⟨b', rfl⟩ := Option.ne_none_iff_exists'.1 hb
      simp [mapIndex, mapLookup, mapKeys, hk]
    · have hka : (k == a) = false := by simpa using Ne.symm hk
      have hstep : mapIndex ((a, b) :: m) k = mapIndex m k := by
        simp [mapIndex, mapLookup, hk]
      rw [hstep, ih']
      simp [mapKeys, hka]

end OneProvider

/-! ## The provider keys of the matrix -/

section Claims

variable {ρ δ : Type}

/-- C1: the keys of `matrix.Providers` are exactly the names of the registrar registry
and of the DNS-provider registry other than the sentinel `"NONE"`: no key occurs twice,
a name is a key if and only if it is a name of one of the two registries and is not
`"NONE"` (so a name of both registries is counted once), and `"NONE"` is never a key. -/
theorem providers_keys_exact (R : Registry ρ δ) :
    (mapKeys (buildMatrix R).Providers).Nodup ∧
    (∀ n : String, n ∈ mapKeys (buildMatrix R).Providers ↔
      (n ∈ mapKeys R.RegistrarTypes ∨ n ∈ mapKeys R.DNSProviderTypes) ∧ n ≠ "NONE") ∧
    (∀ n : String, (mapKeys (buildMatrix R).Providers).count n =
      if (n ∈ mapKeys R.RegistrarTypes ∨ n ∈ mapKeys R.DNSProviderTypes) ∧ n ≠ "NONE"
      then 1 else 0) ∧
    "NONE" ∉ mapKeys (buildMatrix R).Providers := by
  have hnodup : (mapKeys (buildMatrix R).Providers).Nodup := by
    unfold buildMatrix
    exact loop_Providers_nodup R _ _ (by simp [mapKeys])
  have hmem : ∀ n : String, n ∈ mapKeys (buildMatrix R).Providers ↔
      (n ∈ mapKeys R.RegistrarTypes ∨ n ∈ mapKeys R.DNSProviderTypes) ∧ n ≠ "NONE" := by
    intro n
    rw [mem_mapKeys_iff_isSome, buildMatrix_Providers_lookup]
    by_cases hc : (n ∈ mapKeys R.RegistrarTypes ∨ n ∈ mapKeys R.DNSProviderTypes) ∧ n ≠ "NONE"
    · simp [if_pos hc, hc]
    · simp [if_neg hc, hc]
  refine ⟨hnodup, hmem, ?_, ?_⟩
  · intro n
    split
    · next h => exact List.count_eq_one_of_mem hnodup ((hmem n).2 h)
    · next h => exact List.count_eq_zero_of_not_mem (fun hn => h ((hmem n).1 hn))
  · intro h
    exact ((hmem "NONE").1 h).2 rfl

/-! ## The entries of one provider -/

/-- C2, first part, refuted as stated: in `nilInitializerRegistry` the name `"Acme"` is
a key of the registrar registry and a provider of the matrix, and its `"Registrar"`
entry has `HasFeature = false`. -/
theorem registrar_entry_not_membership :
    "Acme" ∈ mapKeys nilInitializerRegistry.RegistrarTypes ∧
    (∃ fm, mapLookup (buildMatrix nilInitializerRegistry).Providers "Acme" = some fm ∧
      mapLookup fm "Registrar" = some { HasFeature := false, Comment := "" }) :=
  ⟨by decide, providerFeatureMap nilInitializerRegistry "Acme", by decide, by decide⟩

/-- C2 (amended): for every provider `p` of the matrix, whatever the notes, the entries
`"Registrar"` and `"DNS Provider"` are present with an empty comment, and their
`HasFeature` tells whether the registrar registry, respectively the DNS-provider
registry, holds a non-nil initializer under `p`.  When every initializer of a registry
is non-nil this is membership of `p` in the names of that registry. -/
theorem type_entries_from_registries (R : Registry ρ δ) (p : String) (fm : FeatureMap)
    (h : mapLookup (buildMatrix R).Providers p = some fm) :
    mapLookup fm "Registrar" =
      some { HasFeature := (mapIndex R.RegistrarTypes p).isSome, Comment := "" } ∧
    mapLookup fm "DNS Provider" =
      some { HasFeature := (mapIndex R.DNSProviderTypes p).isSome, Comment := "" } ∧
    ((∀ e ∈ R.RegistrarTypes, e.2 ≠ none) →
      (mapIndex R.RegistrarTypes p).isSome = decide (p ∈ mapKeys R.RegistrarTypes)) ∧
    ((∀ e ∈ R.DNSProviderTypes, e.2 ≠ none) →
      (mapIndex R.DNSProviderTypes p).isSome = decide (p ∈ mapKeys R.DNSProviderTypes)) := by
  rw [buildMatrix_Providers_eq_some R p fm h]
  exact ⟨providerFeatureMap_Registrar R p, providerFeatureMap_DNSProvider R p,
    fun hr => mapIndex_isSome_of_nonnil _ hr p, fun hd => mapIndex_isSome_of_nonnil _ hd p⟩

/-- Witness of C2 (amended): provider `"Bar"` of `sampleRegistry`, a DNS provider with
notes that is no registrar. -/
theorem type_entries_from_registries_witness :
    mapLookup (buildMatrix sampleRegistry).Providers "Bar"
      = some (providerFeatureMap sampleRegistry "Bar") ∧
    (∀ e ∈ sampleRegistry.RegistrarTypes, e.2 ≠ none) ∧
    (∀ e ∈ sampleRegistry.DNSProviderTypes, e.2 ≠ none) ∧
    mapLookup (providerFeatureMap sampleRegistry "Bar") "Registrar" =
      some { HasFeature := false, Comment := "" } ∧
    mapLookup (providerFeatureMap sampleRegistry "Bar") "DNS Provider" =
      some { HasFeature := true, Comment := "" } ∧
    (mapIndex sampleRegistry.RegistrarTypes "Bar").isSome
      = decide ("Bar" ∈ mapKeys sampleRegistry.RegistrarTypes) ∧
    (mapIndex sampleRegistry.DNSProviderTypes "Bar").isSome
      = decide ("Bar" ∈ mapKeys sampleRegistry.DNSProviderTypes) :=
  have hr : ∀ e ∈ sampleRegistry.RegistrarTypes, e.2 ≠ none := by decide
  have hd : ∀ e ∈ sampleRegistry.DNSProviderTypes, e.2 ≠ none := by decide
  have h := type_entries_from_registries sampleRegistry "Bar"
    (providerFeatureMap sampleRegistry "Bar") (by decide)
  ⟨by decide, hr, hd, h.1, h.2.1, h.2.2.1 hr, h.2.2.2 hd⟩

/-- C3: for every provider `p` of the matrix and each of the features ALIAS, SRV, PTR,
CAA and no_purge, a note of `p` for the underlying capability is the entry of the
feature, unchanged (same `HasFeature`, same `Comment`), for every probe function; for
no_purge the note is not negated. -/
theorem note_overrides_probe (R : Registry ρ δ) (p : String) (fm : FeatureMap)
    (h : mapLookup (buildMatrix R).Providers p = some fm)
    (name : String) (cap : Capability)
    (hf : (name, cap) ∈ capBackedFeatures ++ [("no_purge", Capability.CantUseNOPURGE)])
    (note : DocumentationNote) (hn : mapIndex (providerNotes R p) cap = some note) :
    mapLookup fm name = some note := by
  rw [buildMatrix_Providers_eq_some R p fm h]
  rcases List.mem_append.1 hf with hc | hp
  · rw [providerFeatureMap_capBacked R p name cap hc, hn]
  · simp only [List.mem_singleton, Prod.mk.injEq] at hp
    obtain ⟨rfl, rfl⟩ := hp
    rw [providerFeatureMap_noPurge, hn]

/-- Witness of C3: provider `"Bar"` of `sampleRegistry` has the note
`HasFeature = false` for `CanUseSRV` while the probe of SRV answers true. -/
theorem note_overrides_probe_witness :
    sampleRegistry.ProviderHasCabability "Bar" Capability.CanUseSRV = true ∧
    mapIndex (providerNotes sampleRegistry "Bar") Capability.CanUseSRV
      = some { HasFeature := false, Comment := "planned" } ∧
    mapLookup (providerFeatureMap sampleRegistry "Bar") "SRV"
      = some { HasFeature := false, Comment := "planned" } :=
  ⟨by decide, by decide,
    note_overrides_probe sampleRegistry "Bar" (providerFeatureMap sampleRegistry "Bar")
      (by decide) "SRV" Capability.CanUseSRV (by decide) _ (by decide)⟩

/-- C4 refuted as stated: provider `"Foo"` of `silentRegistry` has no note for
`CanUsePTR`, the probe answers false, and the feature map of `"Foo"` has no entry
`"PTR"` (the claim asks for an entry with `HasFeature = false`). -/
theorem probe_false_leaves_no_entry :
    mapIndex (providerNotes silentRegistry "Foo") Capability.CanUsePTR = none ∧
    silentRegistry.ProviderHasCabability "Foo" Capability.CanUsePTR = false ∧
    (∃ fm, mapLookup (buildMatrix silentRegistry).Providers "Foo" = some fm ∧
      mapLookup fm "PTR" = none) :=
  ⟨by decide, by decide, providerFeatureMap silentRegistry "Foo", by decide, by decide⟩

/-- C4 (amended): for every provider `p` of the matrix without a note for the underlying
capability and each of the features ALIAS, SRV, PTR and CAA, the entry of the feature is
present exactly when the probe of `p` for the capability answers true, and it then has
`HasFeature = true` and an empty comment; when the probe answers false the map has no
entry for the feature. -/
theorem probe_entry_without_note (R : Registry ρ δ) (p : String) (fm : FeatureMap)
    (h : mapLookup (buildMatrix R).Providers p = some fm)
    (name : String) (cap : Capability) (hf : (name, cap) ∈ capBackedFeatures)
    (hn : mapIndex (providerNotes R p) cap = none) :
    mapLookup fm name =
      if R.ProviderHasCabability p cap then some { HasFeature := true, Comment := "" }
      else none := by
  rw [buildMatrix_Providers_eq_some R p fm h, providerFeatureMap_capBacked R p name cap hf, hn]

/-- Witness of C4 (amended): provider `"Foo"` of `sampleRegistry` has no notes and the
probe of SRV answers true. -/
theorem probe_entry_without_note_witness :
    mapIndex (providerNotes sampleRegistry "Foo") Capability.CanUseSRV = none ∧
    mapLookup (providerFeatureMap sampleRegistry "Foo") "SRV" =
      (if sampleRegistry.ProviderHasCabability "Foo" Capability.CanUseSRV
       then some { HasFeature := true, Comment := "" } else none) :=
  ⟨by decide,
    probe_entry_without_note sampleRegistry "Foo" (providerFeatureMap sampleRegistry "Foo")
      (by decide) "SRV" Capability.CanUseSRV (by decide) (by decide)⟩

/-- C5: for every provider `p` of the matrix and each of the features Official Support,
dual host and create-domains, reading the feature in the map of `p` gives what reading
the documentation capability in the notes of `p` gives: the entry is present if and
only if there is a note, it is then that note unchanged, and the map of `p` built with
any other probe function has the same entry. -/
theorem doc_entry_iff_note (R : Registry ρ δ) (p : String) (fm : FeatureMap)
    (h : mapLookup (buildMatrix R).Providers p = some fm)
    (name : String) (cap : Capability) (hf : (name, cap) ∈ docOnlyFeatures) :
    mapLookup fm name = mapIndex (providerNotes R p) cap ∧
    ((mapLookup fm name).isSome = true ↔ ∃ note, mapIndex (providerNotes R p) cap = some note) ∧
    (∀ probe : String → Capability → Bool,
      mapLookup (providerFeatureMap { R with ProviderHasCabability := probe } p) name
        = mapLookup fm name) := by
  rw [buildMatrix_Providers_eq_some R p fm h]
  have h1 := providerFeatureMap_docOnly R p name cap hf
  refine ⟨h1, ?_, ?_⟩
  · rw [h1, Option.isSome_iff_exists]
  · intro probe
    rw [h1, providerFeatureMap_docOnly _ p name cap hf]
    rfl

/-- Witness of C5: provider `"Bar"` of `sampleRegistry` has a note for `DocDualHost`. -/
theorem doc_entry_iff_note_witness :
    mapLookup (providerFeatureMap sampleRegistry "Bar") "dual host"
      = some { HasFeature := true, Comment := "apex NS editable" } :=
  ((doc_entry_iff_note sampleRegistry "Bar" (providerFeatureMap sampleRegistry "Bar")
      (by decide) "dual host" Capability.DocDualHost (by decide)).1).trans (by decide)

/-- C6: for every provider `p` of the matrix without a note for `CantUseNOPURGE`, the
entry `"no_purge"` is present and its `HasFeature` is the negation of the probe of `p`
for `CantUseNOPURGE`. -/
theorem no_purge_negates_probe (R : Registry ρ δ) (p : String) (fm : FeatureMap)
    (h : mapLookup (buildMatrix R).Providers p = some fm)
    (hn : mapIndex (providerNotes R p) Capability.CantUseNOPURGE = none) :
    mapLookup fm "no_purge" =
      some { HasFeature := !R.ProviderHasCabability p Capability.CantUseNOPURGE,
             Comment := "" } := by
  rw [buildMatrix_Providers_eq_some R p fm h, providerFeatureMap_noPurge, hn]

/-- Witness of C6: provider `"Foo"` of `sampleRegistry` has no notes and its probe of
`CantUseNOPURGE` answers true, so the entry is present with `HasFeature = false`. -/
theorem no_purge_negates_probe_witness :
    mapIndex (providerNotes sampleRegistry "Foo") Capability.CantUseNOPURGE = none ∧
    sampleRegistry.ProviderHasCabability "Foo" Capability.CantUseNOPURGE = true ∧
    mapLookup (providerFeatureMap sampleRegistry "Foo") "no_purge"
      = some { HasFeature := false, Comment := "" } :=
  ⟨by decide, by decide,
    no_purge_negates_probe sampleRegistry "Foo" (providerFeatureMap sampleRegistry "Foo")
      (by decide) (by decide)⟩

end Claims

/-! ## The example of the specification, the rendered cell, the feature list -/

section Claims2

variable {ρ δ : Type}

/-- C7 refuted as stated: in `fooRegistry`, the registry of the example, provider
`"Foo"` has no notes and its probe of `CanUsePTR` answers false, and the feature map of
`"Foo"` has no entry `"PTR"` (the example asks for a present entry with
`HasFeature = false`). -/
theorem example_foo_has_no_PTR_entry :
    (∀ cap, mapIndex (providerNotes fooRegistry "Foo") cap = none) ∧
    (mapIndex fooRegistry.DNSProviderTypes "Foo").isSome = true ∧
    "Foo" ∉ mapKeys fooRegistry.RegistrarTypes ∧
    fooRegistry.ProviderHasCabability "Foo" Capability.CanUseSRV = true ∧
    fooRegistry.ProviderHasCabability "Foo" Capability.CanUsePTR = false ∧
    fooRegistry.ProviderHasCabability "Foo" Capability.CantUseNOPURGE = true ∧
    (∃ fm, mapLookup (buildMatrix fooRegistry).Providers "Foo" = some fm ∧
      mapLookup fm "PTR" = none) :=
  ⟨fun _ => rfl, by decide, by decide, by decide, by decide, by decide,
    providerFeatureMap fooRegistry "Foo", by decide, by decide⟩

/-- C7 (amended): for a provider `"Foo"` without notes that has a non-nil initializer in
the DNS-provider registry and is no name of the registrar registry, with the probes
`CanUseSRV` true, `CanUsePTR` false and `CantUseNOPURGE` true (the other probes are
free), `"Foo"` is a provider of the matrix and its feature map holds Registrar = false,
DNS Provider = true, SRV = true, no_purge = false, each with an empty comment, and has
no entry for PTR, Official Support, dual host and create-domains. -/
theorem example_foo (R : Registry ρ δ)
    (hnotes : ∀ cap, mapIndex (providerNotes R "Foo") cap = none)
    (hdns : (mapIndex R.DNSProviderTypes "Foo").isSome = true)
    (hreg : "Foo" ∉ mapKeys R.RegistrarTypes)
    (hsrv : R.ProviderHasCabability "Foo" Capability.CanUseSRV = true)
    (hptr : R.ProviderHasCabability "Foo" Capability.CanUsePTR = false)
    (hnp : R.ProviderHasCabability "Foo" Capability.CantUseNOPURGE = true) :
    ∃ fm, mapLookup (buildMatrix R).Providers "Foo" = some fm ∧
      mapLookup fm "Registrar" = some { HasFeature := false, Comment := "" } ∧
      mapLookup fm "DNS Provider" = some { HasFeature := true, Comment := "" } ∧
      mapLookup fm "SRV" = some { HasFeature := true, Comment := "" } ∧
      mapLookup fm "PTR" = none ∧
      mapLookup fm "no_purge" = some { HasFeature := false, Comment := "" } ∧
      mapLookup fm "Official Support" = none ∧
      mapLookup fm "dual host" = none ∧
      mapLookup fm "create-domains" = none := by
  have hkey : "Foo" ∈ mapKeys R.DNSProviderTypes := by
    obtain ⟨v, hv⟩ := Option.isSome_iff_exists.1 hdns
    exact mapIndex_eq_some_mem_mapKeys _ _ v hv
  have hregnil : (mapIndex R.RegistrarTypes "Foo").isSome = false := by
    have h1 : (mapLookup R.RegistrarTypes "Foo").isSome ≠ true :=
      fun h2 => hreg ((mem_mapKeys_iff_isSome _ _).2 h2)
    cases h3 : mapLookup R.RegistrarTypes "Foo" with
    | none => simp [mapIndex, h3]
    | some v => simp [h3] at h1
  refine ⟨providerFeatureMap R "Foo", ?_, ?_, ?_, ?_, ?_, ?_, ?_, ?_, ?_⟩
  · rw [buildMatrix_Providers_lookup, if_pos ⟨Or.inr hkey, by decide⟩]
  · rw [providerFeatureMap_Registrar, hregnil]
  · rw [providerFeatureMap_DNSProvider, hdns]
  · rw [providerFeatureMap_capBacked R "Foo" "SRV" Capability.CanUseSRV (by decide),
      hnotes, hsrv]
    rfl
  · rw [providerFeatureMap_capBacked R "Foo" "PTR" Capability.CanUsePTR (by decide),
      hnotes, hptr]
    rfl
  · rw [providerFeatureMap_noPurge, hnotes, hnp]
    rfl
  · rw [providerFeatureMap_docOnly R "Foo" _ Capability.DocOfficiallySupported (by decide),
      hnotes]
  · rw [providerFeatureMap_docOnly R "Foo" _ Capability.DocDualHost (by decide), hnotes]
  · rw [providerFeatureMap_docOnly R "Foo" _ Capability.DocCreateDomains (by decide), hnotes]

/-- Witness of C7 (amended): provider `"Foo"` of `sampleRegistry`. -/
theorem example_foo_witness :
    ∃ fm, mapLookup (buildMatrix sampleRegistry).Providers "Foo" = some fm ∧
      mapLookup fm "Registrar" = some { HasFeature := false, Comment := "" } ∧
      mapLookup fm "DNS Provider" = some { HasFeature := true, Comment := "" } ∧
      mapLookup fm "SRV" = some { HasFeature := true, Comment := "" } ∧
      mapLookup fm "PTR" = none ∧
      mapLookup fm "no_purge" = some { HasFeature := false, Comment := "" } ∧
      mapLookup fm "Official Support" = none ∧
      mapLookup fm "dual host" = none ∧
      mapLookup fm "create-domains" = none :=
  example_foo sampleRegistry (fun _ => rfl) (by decide) (by decide) (by decide) (by decide)
    (by decide)

/-- C8 refuted as stated: in `pendingNoteRegistry` provider `"Foo"` has a note for
`CanUseSRV` whose boolean is left at its zero value; the cell rendered for SRV is the
cross cell of class `danger`, and it is not the dash cell. -/
theorem unset_note_renders_cross :
    mapIndex (providerNotes pendingNoteRegistry "Foo") Capability.CanUseSRV
      = some { HasFeature := false, Comment := "" } ∧
    (∃ fm, mapLookup (buildMatrix pendingNoteRegistry).Providers "Foo" = some fm ∧
      renderCell id (mapLookup fm "SRV") =
        "<td class=\"danger\">\n\t\t\t<i class=\"fa fa-times text-danger\" aria-hidden=\"true\"></i>\n\t\t</td>" ∧
      renderCell id (mapLookup fm "SRV") ≠ dashCell) :=
  ⟨by decide, providerFeatureMap pendingNoteRegistry "Foo", by decide, by decide, by decide⟩

/-- C8 (amended): when provider `p` of the matrix has a note for the capability of one
of the features ALIAS, SRV, PTR, CAA and the boolean of the note has its zero value
`false`, the cell rendered for the feature is the cell of the entry
`HasFeature = false` with the comment of the note, the cross cell of class `danger`; it
is never the dash cell, whatever the escaping of the comment. -/
theorem false_note_renders_cross (esc : String → String) (R : Registry ρ δ) (p : String)
    (fm : FeatureMap) (h : mapLookup (buildMatrix R).Providers p = some fm)
    (name : String) (cap : Capability) (hf : (name, cap) ∈ capBackedFeatures)
    (note : DocumentationNote) (hn : mapIndex (providerNotes R p) cap = some note)
    (hb : note.HasFeature = false) :
    renderCell esc (mapLookup fm name) =
      "<td class=\"danger\""
        ++ (if note.Comment ≠ "" then
              " data-toggle=\"tooltip\" data-container=\"body\" data-placement=\"top\" title=\""
                ++ esc note.Comment ++ "\""
            else "")
        ++ ">\n\t\t\t<i class=\"fa " ++ (if note.Comment ≠ "" then "has-tooltip " else "")
        ++ "fa-times text-danger\" aria-hidden=\"true\"></i>\n\t\t</td>" ∧
    renderCell esc (mapLookup fm name) ≠ dashCell := by
  rw [buildMatrix_Providers_eq_some R p fm h, providerFeatureMap_capBacked R p name cap hf, hn]
  obtain ⟨b, c⟩ := note
  simp only at hb
  subst hb
  constructor
  · by_cases hc : c = ""
    · subst hc
      rfl
    · simp only [renderCell, ne_eq, hc, not_false_eq_true, if_true, Bool.false_eq_true,
        if_false]
      apply String.ext
      simp [String.data_append]
  · intro heq
    have h3 := congrArg (fun s => s.data.get? 3) heq
    simp [renderCell, dashCell, String.data_append] at h3

/-- Witness of C8 (amended): the note of provider `"Bar"` of `sampleRegistry` for
`CanUseSRV`, with `HasFeature = false` and the comment `planned`. -/
theorem false_note_renders_cross_witness :
    mapIndex (providerNotes sampleRegistry "Bar") Capability.CanUseSRV
      = some { HasFeature := false, Comment := "planned" } ∧
    renderCell id (mapLookup (providerFeatureMap sampleRegistry "Bar") "SRV") ≠ dashCell :=
  ⟨by decide,
    (false_note_renders_cross id sampleRegistry "Bar" (providerFeatureMap sampleRegistry "Bar")
      (by decide) "SRV" Capability.CanUseSRV (by decide)
      { HasFeature := false, Comment := "planned" } (by decide) rfl).2⟩

/-- C9: for every registry, `matrix.Features` is the list literal of the source; its ten
names are Official Support, Registrar, DNS Provider, ALIAS, SRV, PTR, CAA, dual host,
create-domains, no_purge in this order, and no name occurs twice. -/
theorem features_fixed (R : Registry ρ δ) :
    (buildMatrix R).Features = featureDefs ∧
    (buildMatrix R).Features.map FeatureDef.Name =
      ["Official Support", "Registrar", "DNS Provider", "ALIAS", "SRV", "PTR", "CAA",
       "dual host", "create-domains", "no_purge"] ∧
    ((buildMatrix R).Features.map FeatureDef.Name).Nodup ∧
    (buildMatrix R).Features.length = 10 := by
  have h : (buildMatrix R).Features = featureDefs := by
    unfold buildMatrix
    exact loop_Features R _ _
  rw [h]
  exact ⟨rfl, rfl, by decide, rfl⟩

end Claims2

/-! ## Rendering and writing -/

section Claims3

variable {ρ δ ε ω : Type}

/-- C10: `generateFeatureMatrix` fails only through its collaborators.  If rendering the
built matrix returns an error, that error is returned and the file system is left as it
was (no write is performed, whatever `writeFile` would do); otherwise the outcome is
that of the single call of `writeFile` on the path `docs/_includes/matrix.html` with the
whole rendered buffer and mode `0644`.  The matrix itself is built by the total function
`buildMatrix`, which has no error result. -/
theorem generate_error_handling (R : Registry ρ δ)
    (execute : FeatureMatrix → String × Option ε)
    (writeFile : String → String → Nat → ω → ω × Option ε) (world : ω) :
    (∀ e, (execute (buildMatrix R)).2 = some e →
      generateFeatureMatrix R execute writeFile world = (world, some e)) ∧
    ((execute (buildMatrix R)).2 = none →
      generateFeatureMatrix R execute writeFile world =
        writeFile "docs/_includes/matrix.html" (execute (buildMatrix R)).1 0o644 world) := by
  constructor
  · intro e he
    simp only [generateFeatureMatrix]
    rw [he]
  · intro he
    simp only [generateFeatureMatrix]
    rw [he]

/-- Witness of C10: on `sampleRegistry`, a failing rendering leaves the empty file
system empty and returns its error, and a rendering that succeeds is written once. -/
theorem generate_error_handling_witness :
    ((failingExecute (buildMatrix sampleRegistry)).2 = some 7 ∧
      generateFeatureMatrix sampleRegistry failingExecute logWriteFile [] = ([], some 7)) ∧
    ((okExecute (buildMatrix sampleRegistry)).2 = none ∧
      generateFeatureMatrix sampleRegistry okExecute logWriteFile [] =
        ([("docs/_includes/matrix.html", "Bar,Foo,Zed", 420)], none)) :=
  ⟨⟨rfl, (generate_error_handling sampleRegistry failingExecute logWriteFile []).1 7 rfl⟩,
   ⟨rfl, ((generate_error_handling sampleRegistry okExecute logWriteFile []).2 rfl).trans
      (by decide)⟩⟩

end Claims3

/-! ## The order of the provider names -/

section Order

variable {ρ δ : Type} (R : Registry ρ δ)

theorem goStringLe_total (a b : String) : goStringLe a b ∨ goStringLe b a := by
  unfold goStringLe
  exact le_total a.data b.data

theorem goStringLe_trans (a b c : String) (h1 : goStringLe a b) (h2 : goStringLe b c) :
    goStringLe a c := by
  unfold goStringLe at *
  exact le_trans h1 h2

theorem goStringLe_antisymm (a b : String) (h1 : goStringLe a b) (h2 : goStringLe b a) :
    a = b := by
  unfold goStringLe at *
  exact String.ext (le_antisymm h1 h2)

theorem lt_of_goStringLe_of_ne (a b : String) (h : goStringLe a b) (hne : a ≠ b) : a < b := by
  rw [String.lt_iff_toList_lt]
  unfold goStringLe at h
  exact lt_of_le_of_ne h (fun he => hne (String.ext he))

theorem sortStrings_sorted (l : List String) : (sortStrings l).Sorted goStringLe := by
  haveI : IsTotal String goStringLe := ⟨goStringLe_total⟩
  haveI : IsTrans String goStringLe := ⟨goStringLe_trans⟩
  exact List.sorted_insertionSort goStringLe l

theorem sortStrings_perm (l : List String) : (sortStrings l).Perm l :=
  List.perm_insertionSort goStringLe l

theorem sortStrings_eq_of_perm (l₁ l₂ : List String) (h : l₁.Perm l₂) :
    sortStrings l₁ = sortStrings l₂ := by
  haveI : IsAntisymm String goStringLe := ⟨goStringLe_antisymm⟩
  exact List.eq_of_perm_of_sorted
    (((sortStrings_perm l₁).trans h).trans (sortStrings_perm l₂).symm)
    (sortStrings_sorted l₁) (sortStrings_sorted l₂)

theorem nodup_allNames : (mapKeys (allNames R)).Nodup := by
  unfold allNames
  exact nodup_mapKeys_foldl_mapStore _ _
    (nodup_mapKeys_foldl_mapStore _ _ (by simp [mapKeys]))

theorem providerTypes_eq_sort : providerTypes R = sortStrings (mapKeys (allNames R)) := by
  simp only [providerTypes, foldl_append_singleton, List.nil_append]

theorem nodup_providerTypes : (providerTypes R).Nodup := by
  rw [providerTypes_eq_sort]
  exact ((sortStrings_perm _).nodup_iff).2 (nodup_allNames R)

theorem strictly_sorted_of_sorted_nodup (l : List String) (hs : l.Sorted goStringLe)
    (hn : l.Nodup) : l.Sorted (fun a b => a < b) := by
  induction l with
  | nil => exact List.sorted_nil
  | cons a l ih =>
    have hs' := List.sorted_cons.1 hs
    have hn' := List.nodup_cons.1 hn
    refine List.sorted_cons.2 ⟨fun b hb => ?_, ih hs'.2 hn'.2⟩
    exact lt_of_goStringLe_of_ne a b (hs'.1 b hb) (fun he => hn'.1 (he ▸ hb))

theorem loop_Providers_keys (ps : List String) (hn : ps.Nodup) (m : FeatureMatrix)
    (hm : ∀ p ∈ ps, p ∉ mapKeys m.Providers) :
    mapKeys (ps.foldl (loopBody R) m).Providers =
      mapKeys m.Providers ++ ps.filter (fun p => decide (p ≠ "NONE")) := by
  induction ps generalizing m with
  | nil => simp
  | cons a ps ih =>
    have hn' := List.nodup_cons.1 hn
    rw [List.foldl_cons]
    by_cases ha : a = "NONE"
    · have hstep : loopBody R m a = m := by simp [loopBody, ha]
      rw [hstep, ih hn'.2 m (fun p hp => hm p (List.mem_cons_of_mem _ hp))]
      simp [ha]
    · have hfresh : a ∉ mapKeys m.Providers := hm a (List.mem_cons_self _ _)
      have hkeys : mapKeys (loopBody R m a).Providers = mapKeys m.Providers ++ [a] := by
        simp only [loopBody, if_neg ha]
        generalize m.Providers = ms at hfresh
        induction ms with
        | nil => simp [mapStore, mapKeys]
        | cons e ms ih2 =>
          obtain ⟨k, v⟩ := e
          have hk : k ≠ a := fun he => hfresh (by simp [mapKeys, he])
          have hrest : a ∉ mapKeys ms := fun hmem => hfresh (by
            simp only [mapKeys, List.map_cons, List.mem_cons]
            exact Or.inr hmem)
          have ih3 := ih2 hrest
          simp only [mapKeys] at ih3
          simp [mapStore, mapKeys, hk, ih3]
      rw [ih hn'.2 (loopBody R m a), hkeys]
      · simp [ha]
      · intro p hp hmem
        rw [hkeys] at hmem
        rcases List.mem_append.1 hmem with h1 | h1
        · exact hm p (List.mem_cons_of_mem _ hp) h1
        · have hpa : p = a := by simpa using h1
          exact hn'.1 (hpa ▸ hp)

end Order

/-! ## Sorted columns and independence from the order of visit -/

section Determinism

variable {ρ δ : Type}

/-- C12: the slice `providerTypes` over which the loop runs is strictly ascending in the
lexicographic order of strings, has no name twice, and is a permutation of the names of
the registrar registry and of the DNS-provider registry taken together without
repetition (a name of both registries occurs once).  The keys of `matrix.Providers`,
the columns, are this slice without `"NONE"`, in the same strictly ascending order. -/
theorem provider_names_strictly_ascending (R : Registry ρ δ) :
    (providerTypes R).Sorted (fun a b => a < b) ∧
    (providerTypes R).Nodup ∧
    (providerTypes R).Perm
      ((mapKeys R.RegistrarTypes ++ mapKeys R.DNSProviderTypes).dedup) ∧
    mapKeys (buildMatrix R).Providers
      = (providerTypes R).filter (fun p => decide (p ≠ "NONE")) ∧
    (mapKeys (buildMatrix R).Providers).Sorted (fun a b => a < b) := by
  have hnodup := nodup_providerTypes R
  have hsorted : (providerTypes R).Sorted (fun a b => a < b) := by
    refine strictly_sorted_of_sorted_nodup _ ?_ hnodup
    rw [providerTypes_eq_sort]
    exact sortStrings_sorted _
  have hkeys : mapKeys (buildMatrix R).Providers
      = (providerTypes R).filter (fun p => decide (p ≠ "NONE")) := by
    unfold buildMatrix
    rw [loop_Providers_keys R _ hnodup _ (by simp [mapKeys])]
    simp [mapKeys]
  refine ⟨hsorted, hnodup, ?_, hkeys, ?_⟩
  · rw [List.perm_ext_iff_of_nodup hnodup (List.nodup_dedup _)]
    intro a
    rw [mem_providerTypes, List.mem_dedup, List.mem_append]
  · rw [hkeys]
    exact List.Pairwise.filter _ hsorted

theorem mapLookup_perm {κ υ : Type} [DecidableEq κ] {m m' : GoMap κ υ} (h : m.Perm m')
    (hn : (mapKeys m).Nodup) (k : κ) : mapLookup m k = mapLookup m' k := by
  induction h with
  | nil => rfl
  | cons e _ ih =>
    obtain ⟨a, b⟩ := e
    have hn' : (mapKeys _).Nodup := (List.nodup_cons.1 hn).2
    simp only [mapLookup, ih hn']
  | swap e e' l =>
    obtain ⟨a, b⟩ := e
    obtain ⟨a', b'⟩ := e'
    have hne : a' ≠ a := by
      intro he
      have h1 := (List.nodup_cons.1 hn).1
      exact h1 (by simp [he])
    by_cases h1 : a = k
    · have h2 : a' ≠ k := fun h3 => hne (h3.trans h1.symm)
      simp [mapLookup, h1, h2]
    · simp [mapLookup, h1]
  | trans h1 _ ih1 ih2 =>
    have hn2 : (mapKeys _).Nodup := ((h1.map Prod.fst).nodup_iff).1 hn
    exact (ih1 hn).trans (ih2 hn2)

theorem providerFeatureMap_congr (R R' : Registry ρ δ)
    (hreg : ∀ k, mapLookup R.RegistrarTypes k = mapLookup R'.RegistrarTypes k)
    (hdns : ∀ k, mapLookup R.DNSProviderTypes k = mapLookup R'.DNSProviderTypes k)
    (hnotes : ∀ p cap, mapIndex (providerNotes R p) cap = mapIndex (providerNotes R' p) cap)
    (hprobe : R.ProviderHasCabability = R'.ProviderHasCabability) (p : String) :
    providerFeatureMap R p = providerFeatureMap R' p := by
  have hreg' : mapIndex R.RegistrarTypes p = mapIndex R'.RegistrarTypes p := by
    simp only [mapIndex, hreg]
  have hdns' : mapIndex R.DNSProviderTypes p = mapIndex R'.DNSProviderTypes p := by
    simp only [mapIndex, hdns]
  simp only [providerFeatureMap, setCap, setDoc, hnotes, hreg', hdns', hprobe]

theorem providerTypes_congr (R R' : Registry ρ δ)
    (hreg : ∀ k, mapLookup R.RegistrarTypes k = mapLookup R'.RegistrarTypes k)
    (hdns : ∀ k, mapLookup R.DNSProviderTypes k = mapLookup R'.DNSProviderTypes k) :
    providerTypes R = providerTypes R' := by
  haveI : IsAntisymm String goStringLe := ⟨goStringLe_antisymm⟩
  have hperm : (providerTypes R).Perm (providerTypes R') := by
    rw [List.perm_ext_iff_of_nodup (nodup_providerTypes R) (nodup_providerTypes R')]
    intro a
    simp only [mem_providerTypes, mem_mapKeys_iff_isSome, hreg, hdns]
  have hs : ∀ Q : Registry ρ δ, (providerTypes Q).Sorted goStringLe := by
    intro Q
    rw [providerTypes_eq_sort]
    exact sortStrings_sorted _
  exact List.eq_of_perm_of_sorted hperm (hs R) (hs R')

/-- C11: building the matrix is deterministic.  Two registries that hold the same maps
(every key reads the same in the registrar map and in the DNS-provider map, every
provider reads the same notes, the probe is the same function), whatever the order in
which their maps are laid out and visited, give the same matrix: the same providers in
the same order with the same entries, and the same feature sequence.  The order in which
`range allNames` visits the names does not matter either. -/
theorem buildMatrix_deterministic (R R' : Registry ρ δ)
    (hreg : ∀ k, mapLookup R.RegistrarTypes k = mapLookup R'.RegistrarTypes k)
    (hdns : ∀ k, mapLookup R.DNSProviderTypes k = mapLookup R'.DNSProviderTypes k)
    (hnotes : ∀ p cap, mapIndex (providerNotes R p) cap = mapIndex (providerNotes R' p) cap)
    (hprobe : R.ProviderHasCabability = R'.ProviderHasCabability)
    (order : List String) (horder : order.Perm (mapKeys (allNames R'))) :
    buildMatrix R = buildMatrix R' ∧ buildMatrixVisiting R' order = buildMatrix R := by
  have hbody : loopBody R = loopBody R' := by
    funext m p
    simp only [loopBody, providerFeatureMap_congr R R' hreg hdns hnotes hprobe p]
  have h1 : buildMatrix R = buildMatrix R' := by
    simp only [buildMatrix, hbody, providerTypes_congr R R' hreg hdns]
  refine ⟨h1, ?_⟩
  rw [h1]
  simp only [buildMatrixVisiting, buildMatrix, foldl_append_singleton, List.nil_append,
    providerTypes_eq_sort, sortStrings_eq_of_perm _ _ horder]

/-- Witness of C11: `shuffledRegistry` holds the maps of `sampleRegistry` in another
order, and the names are visited in a third order. -/
theorem buildMatrix_deterministic_witness :
    sampleRegistry.RegistrarTypes ≠ shuffledRegistry.RegistrarTypes ∧
    buildMatrix sampleRegistry = buildMatrix shuffledRegistry ∧
    buildMatrixVisiting shuffledRegistry ["Foo", "Zed", "NONE", "Bar"]
      = buildMatrix sampleRegistry :=
  ⟨by decide,
    buildMatrix_deterministic sampleRegistry shuffledRegistry
      (mapLookup_perm (by decide) (by decide))
      (mapLookup_perm (by decide) (by decide))
      (fun p cap => by
        by_cases hp : p = "Bar"
        · subst hp
          have hperm : List.Perm (providerNotes sampleRegistry "Bar")
              (providerNotes shuffledRegistry "Bar") := by decide
          have hnd : (mapKeys (providerNotes sampleRegistry "Bar")).Nodup := by decide
          exact congrArg Option.join (mapLookup_perm hperm hnd cap)
        · have hp' : ¬ "Bar" = p := fun h => hp h.symm
          simp [providerNotes, mapIndex, mapLookup, sampleRegistry, shuffledRegistry, hp'])
      rfl ["Foo", "Zed", "NONE", "Bar"] (by decide)⟩

end Determinism

/-! ## The forms of a rendered cell -/

section Cells

theorem renderCell_some_ne_dashCell (esc : String → String) (n : DocumentationNote) :
    renderCell esc (some n) ≠ dashCell := by
  intro heq
  have h3 := congrArg (fun s => s.data.get? 3) heq
  obtain ⟨b, c⟩ := n
  cases b <;> simp [renderCell, dashCell, String.data_append] at h3

theorem isCheckCell_renderCell_true (esc : String → String) (c : String) :
    isCheckCell (renderCell esc (some { HasFeature := true, Comment := c })) := by
  constructor
  · simp [renderCell, String.data_append]
  · refine ⟨("<td class=\"success\""
        ++ (if c ≠ "" then
              " data-toggle=\"tooltip\" data-container=\"body\" data-placement=\"top\" title=\""
                ++ esc c ++ "\""
            else "")
        ++ ">\n\t\t\t<i class=\"fa " ++ (if c ≠ "" then "has-tooltip " else "")).data, ?_⟩
    simp [renderCell, String.data_append]

theorem isCrossCell_renderCell_false (esc : String → String) (c : String) :
    isCrossCell (renderCell esc (some { HasFeature := false, Comment := c })) := by
  constructor
  · simp [renderCell, String.data_append]
  · refine ⟨("<td class=\"danger\""
        ++ (if c ≠ "" then
              " data-toggle=\"tooltip\" data-container=\"body\" data-placement=\"top\" title=\""
                ++ esc c ++ "\""
            else "")
        ++ ">\n\t\t\t<i class=\"fa " ++ (if c ≠ "" then "has-tooltip " else "")).data, ?_⟩
    simp [renderCell, String.data_append]

theorem not_isCheckCell_renderCell_false (esc : String → String) (c : String) :
    ¬ isCheckCell (renderCell esc (some { HasFeature := false, Comment := c })) := by
  rintro ⟨⟨t, ht⟩, _⟩
  have h3 := congrArg (fun s => s.get? 11) ht
  simp [renderCell, String.data_append] at h3

theorem not_isCrossCell_renderCell_true (esc : String → String) (c : String) :
    ¬ isCrossCell (renderCell esc (some { HasFeature := true, Comment := c })) := by
  rintro ⟨⟨t, ht⟩, _⟩
  have h3 := congrArg (fun s => s.get? 11) ht
  simp [renderCell, String.data_append] at h3

theorem dashCell_forms : ¬ isCheckCell dashCell ∧ ¬ isCrossCell dashCell ∧ ¬ hasTooltip dashCell := by
  unfold isCheckCell isCrossCell hasTooltip
  decide

theorem tooltip_text_renderCell (esc : String → String) (b : Bool) (c : String) (hc : c ≠ "") :
    (" data-toggle=\"tooltip\" data-container=\"body\" data-placement=\"top\" title=\""
        ++ esc c ++ "\"").data
      <:+: (renderCell esc (some { HasFeature := b, Comment := c })).data := by
  refine ⟨("<td class=\"" ++ (if b then "success" else "danger") ++ "\"").data,
    (">\n\t\t\t<i class=\"fa " ++ "has-tooltip "
      ++ (if b then "fa-check text-success" else "fa-times text-danger")
      ++ "\" aria-hidden=\"true\"></i>\n\t\t</td>").data, ?_⟩
  simp [renderCell, String.data_append, hc]

theorem hasTooltip_renderCell (esc : String → String) (b : Bool) (c : String) (hc : c ≠ "") :
    hasTooltip (renderCell esc (some { HasFeature := b, Comment := c })) := by
  unfold hasTooltip
  refine ⟨("<td class=\"" ++ (if b then "success" else "danger") ++ "\"").data,
    (esc c ++ "\"" ++ ">\n\t\t\t<i class=\"fa " ++ "has-tooltip "
      ++ (if b then "fa-check text-success" else "fa-times text-danger")
      ++ "\" aria-hidden=\"true\"></i>\n\t\t</td>").data, ?_⟩
  simp [renderCell, String.data_append, hc]

set_option maxRecDepth 20000 in
theorem not_hasTooltip_renderCell_empty (esc : String → String) (b : Bool) :
    ¬ hasTooltip (renderCell esc (some { HasFeature := b, Comment := "" })) := by
  unfold hasTooltip
  cases b
  · have h : renderCell esc (some { HasFeature := false, Comment := "" })
        = renderCell id (some { HasFeature := false, Comment := "" }) := rfl
    rw [h]
    decide
  · have h : renderCell esc (some { HasFeature := true, Comment := "" })
        = renderCell id (some { HasFeature := true, Comment := "" }) := rfl
    rw [h]
    decide

/-- C13: the cell rendered for a feature name and the feature map of a provider depends
on the entry read under the name only, and has one of three forms that exclude each
other: it is the dash cell if and only if the map has no entry under the name, the check
cell of class `success` if and only if the entry is present with `HasFeature = true`, and
the cross cell of class `danger` if and only if the entry is present with
`HasFeature = false`.  The attributes of the tooltip are written if and only if the
entry is present with a non-empty comment, and the title is then the escaped comment. -/
theorem cell_forms (esc : String → String) (fm : FeatureMap) (name : String) :
    (renderCell esc (mapLookup fm name) = dashCell ↔ mapLookup fm name = none) ∧
    (isCheckCell (renderCell esc (mapLookup fm name)) ↔
      ∃ n, mapLookup fm name = some n ∧ n.HasFeature = true) ∧
    (isCrossCell (renderCell esc (mapLookup fm name)) ↔
      ∃ n, mapLookup fm name = some n ∧ n.HasFeature = false) ∧
    (hasTooltip (renderCell esc (mapLookup fm name)) ↔
      ∃ n, mapLookup fm name = some n ∧ n.Comment ≠ "") ∧
    (∀ n, mapLookup fm name = some n → n.Comment ≠ "" →
      (" data-toggle=\"tooltip\" data-container=\"body\" data-placement=\"top\" title=\""
          ++ esc n.Comment ++ "\"").data
        <:+: (renderCell esc (mapLookup fm name)).data) ∧
    ¬ (renderCell esc (mapLookup fm name) = dashCell ∧
        isCheckCell (renderCell esc (mapLookup fm name))) ∧
    ¬ (renderCell esc (mapLookup fm name) = dashCell ∧
        isCrossCell (renderCell esc (mapLookup fm name))) ∧
    ¬ (isCheckCell (renderCell esc (mapLookup fm name)) ∧
        isCrossCell (renderCell esc (mapLookup fm name))) := by
  cases hf : mapLookup fm name with
  | none =>
    have hd : renderCell esc none = dashCell := rfl
    rw [hd]
    refine ⟨by simp, ?_, ?_, ?_, ?_, ?_, ?_, ?_⟩
    · simpa using dashCell_forms.1
    · simpa using dashCell_forms.2.1
    · simpa using dashCell_forms.2.2
    · intro n hn
      exact absurd hn (by simp)
    · exact fun h => dashCell_forms.1 h.2
    · exact fun h => dashCell_forms.2.1 h.2
    · exact fun h => dashCell_forms.1 h.1
  | some n =>
    obtain ⟨b, c⟩ := n
    have hnd := renderCell_some_ne_dashCell esc { HasFeature := b, Comment := c }
    refine ⟨by simp [hnd], ?_, ?_, ?_, ?_, fun h => hnd h.1, fun h => hnd h.1, ?_⟩
    · cases b
      · simpa using not_isCheckCell_renderCell_false esc c
      · simpa using isCheckCell_renderCell_true esc c
    · cases b
      · simpa using isCrossCell_renderCell_false esc c
      · simpa using not_isCrossCell_renderCell_true esc c
    · by_cases hc : c = ""
      · subst hc
        simpa using not_hasTooltip_renderCell_empty esc b
      · simpa [hc] using hasTooltip_renderCell esc b c hc
    · intro n hn hc
      cases Option.some.inj hn
      exact tooltip_text_renderCell esc b c hc
    · cases b
      · exact fun h => not_isCheckCell_renderCell_false esc c h.1
      · exact fun h => not_isCrossCell_renderCell_true esc c h.2

/-- Witness of C13: the cell of SRV for provider `"Bar"` of `sampleRegistry`, whose
entry is a note with the comment `planned`. -/
theorem cell_forms_witness :
    mapLookup (providerFeatureMap sampleRegistry "Bar") "SRV"
      = some { HasFeature := false, Comment := "planned" } ∧
    (" data-toggle=\"tooltip\" data-container=\"body\" data-placement=\"top\" title=\""
        ++ "planned" ++ "\"").data
      <:+: (renderCell id (mapLookup (providerFeatureMap sampleRegistry "Bar") "SRV")).data :=
  ⟨by decide,
    (cell_forms id (providerFeatureMap sampleRegistry "Bar") "SRV").2.2.2.2.1
      { HasFeature := false, Comment := "planned" } (by decide) (by decide)⟩

end Cells

/-! ## Frame of `SetSimple`, and invariants of the feature maps -/

section Invariants

variable {ρ δ : Type}

/-- C14: `SetSimple` changes at most the key `name`: every other key reads as before.
If `f()` is true the key `name` holds `HasFeature = true` with an empty comment; if
`f()` is false and `unknownsAllowed` is false it holds `HasFeature = false` with an
empty comment; if `f()` is false and `unknownsAllowed` is true the map is returned as it
was, an entry under `name` included. -/
theorem SetSimple_frame (fm : FeatureMap) (name : String) (unknownsAllowed : Bool)
    (f : Unit → Bool) :
    (∀ k, k ≠ name →
      mapLookup (FeatureMap.SetSimple fm name unknownsAllowed f) k = mapLookup fm k) ∧
    (f () = true →
      mapLookup (FeatureMap.SetSimple fm name unknownsAllowed f) name
        = some { HasFeature := true, Comment := "" }) ∧
    (f () = false → unknownsAllowed = false →
      mapLookup (FeatureMap.SetSimple fm name unknownsAllowed f) name
        = some { HasFeature := false, Comment := "" }) ∧
    (f () = false → unknownsAllowed = true →
      FeatureMap.SetSimple fm name unknownsAllowed f = fm) := by
  refine ⟨?_, ?_, ?_, ?_⟩
  · intro k hk
    rw [mapLookup_SetSimple, if_neg (Ne.symm hk)]
  · intro hf
    rw [mapLookup_SetSimple, if_pos rfl, if_pos hf]
  · intro hf hu
    rw [mapLookup_SetSimple, if_pos rfl, hf, hu]
    rfl
  · intro hf hu
    simp [FeatureMap.SetSimple, hf, hu]

/-- Witness of C14: a map with the entry `"SRV"`, set with each of the three outcomes. -/
theorem SetSimple_frame_witness :
    mapLookup (FeatureMap.SetSimple [("SRV", { HasFeature := false, Comment := "planned" })]
        "PTR" true (fun _ => true)) "SRV"
      = some { HasFeature := false, Comment := "planned" } ∧
    mapLookup (FeatureMap.SetSimple [("SRV", { HasFeature := false, Comment := "planned" })]
        "SRV" true (fun _ => true)) "SRV"
      = some { HasFeature := true, Comment := "" } ∧
    mapLookup (FeatureMap.SetSimple [("SRV", { HasFeature := true, Comment := "planned" })]
        "SRV" false (fun _ => false)) "SRV"
      = some { HasFeature := false, Comment := "" } ∧
    FeatureMap.SetSimple [("SRV", { HasFeature := false, Comment := "planned" })]
        "SRV" true (fun _ => false)
      = [("SRV", { HasFeature := false, Comment := "planned" })] :=
  ⟨(SetSimple_frame [("SRV", { HasFeature := false, Comment := "planned" })]
      "PTR" true (fun _ => true)).1 "SRV" (by decide),
   (SetSimple_frame [("SRV", { HasFeature := false, Comment := "planned" })]
      "SRV" true (fun _ => true)).2.1 rfl,
   (SetSimple_frame [("SRV", { HasFeature := true, Comment := "planned" })]
      "SRV" false (fun _ => false)).2.2.1 rfl rfl,
   (SetSimple_frame [("SRV", { HasFeature := false, Comment := "planned" })]
      "SRV" true (fun _ => false)).2.2.2 rfl rfl⟩

/-- C15: when every name of the registrar registry and of the DNS-provider registry has
a non-nil initializer, every provider of the matrix has the entry `"Registrar"` or the
entry `"DNS Provider"` with `HasFeature = true`. -/
theorem provider_has_a_type (R : Registry ρ δ)
    (hr : ∀ e ∈ R.RegistrarTypes, e.2 ≠ none) (hd : ∀ e ∈ R.DNSProviderTypes, e.2 ≠ none)
    (p : String) (fm : FeatureMap) (h : mapLookup (buildMatrix R).Providers p = some fm) :
    mapLookup fm "Registrar" = some { HasFeature := true, Comment := "" } ∨
    mapLookup fm "DNS Provider" = some { HasFeature := true, Comment := "" } := by
  have hp : p ∈ mapKeys (buildMatrix R).Providers := by
    rw [mem_mapKeys_iff_isSome, h]
    rfl
  have hmem : (p ∈ mapKeys R.RegistrarTypes ∨ p ∈ mapKeys R.DNSProviderTypes) ∧ p ≠ "NONE" := by
    rw [mem_mapKeys_iff_isSome, buildMatrix_Providers_lookup] at hp
    by_contra hc
    rw [if_neg hc] at hp
    exact absurd hp (by simp)
  rw [buildMatrix_Providers_eq_some R p fm h, providerFeatureMap_Registrar,
    providerFeatureMap_DNSProvider, mapIndex_isSome_of_nonnil _ hr,
    mapIndex_isSome_of_nonnil _ hd]
  rcases hmem.1 with h1 | h1
  · left
    simp [h1]
  · right
    simp [h1]

/-- Witness of C15: provider `"Zed"` of `sampleRegistry`, of both kinds. -/
theorem provider_has_a_type_witness :
    (∀ e ∈ sampleRegistry.RegistrarTypes, e.2 ≠ none) ∧
    (∀ e ∈ sampleRegistry.DNSProviderTypes, e.2 ≠ none) ∧
    (mapLookup (providerFeatureMap sampleRegistry "Zed") "Registrar"
        = some { HasFeature := true, Comment := "" } ∨
      mapLookup (providerFeatureMap sampleRegistry "Zed") "DNS Provider"
        = some { HasFeature := true, Comment := "" }) :=
  ⟨by decide, by decide,
    provider_has_a_type sampleRegistry (by decide) (by decide) "Zed"
      (providerFeatureMap sampleRegistry "Zed") (by decide)⟩

end Invariants

/-! ## Keys and comments of the feature maps -/

section Keys

variable {ρ δ : Type} (R : Registry ρ δ)

theorem nodup_mapKeys_SetSimple (fm : FeatureMap) (name : String) (u : Bool) (f : Unit → Bool)
    (h : (mapKeys fm).Nodup) : (mapKeys (FeatureMap.SetSimple fm name u f)).Nodup := by
  unfold FeatureMap.SetSimple
  split
  · exact nodup_mapKeys_mapStore _ _ _ h
  · split
    · exact nodup_mapKeys_mapStore _ _ _ h
    · exact h

theorem nodup_mapKeys_setDoc (notes : DocumentationNotes) (fm : FeatureMap) (name : String)
    (cap : Capability) (h : (mapKeys fm).Nodup) :
    (mapKeys (setDoc notes fm name cap)).Nodup := by
  unfold setDoc
  split
  · exact nodup_mapKeys_mapStore _ _ _ h
  · exact h

theorem nodup_mapKeys_setCap (probe : String → Capability → Bool) (notes : DocumentationNotes)
    (p : String) (fm : FeatureMap) (name : String) (cap : Capability)
    (h : (mapKeys fm).Nodup) : (mapKeys (setCap probe notes p fm name cap)).Nodup := by
  unfold setCap
  split
  · exact nodup_mapKeys_mapStore _ _ _ h
  · exact nodup_mapKeys_SetSimple _ _ _ _ h

theorem nodup_mapKeys_providerFeatureMap (p : String) :
    (mapKeys (providerFeatureMap R p)).Nodup := by
  have h0 : (mapKeys ([] : FeatureMap)).Nodup := by simp [mapKeys]
  have h1 := nodup_mapKeys_setDoc (providerNotes R p) _ "Official Support"
    Capability.DocOfficiallySupported h0
  have h2 := nodup_mapKeys_SetSimple _ "Registrar" false
    (fun _ => (mapIndex R.RegistrarTypes p).isSome) h1
  have h3 := nodup_mapKeys_SetSimple _ "DNS Provider" false
    (fun _ => (mapIndex R.DNSProviderTypes p).isSome) h2
  have h4 := nodup_mapKeys_setCap R.ProviderHasCabability (providerNotes R p) p _ "ALIAS"
    Capability.CanUseAlias h3
  have h5 := nodup_mapKeys_setCap R.ProviderHasCabability (providerNotes R p) p _ "SRV"
    Capability.CanUseSRV h4
  have h6 := nodup_mapKeys_setCap R.ProviderHasCabability (providerNotes R p) p _ "PTR"
    Capability.CanUsePTR h5
  have h7 := nodup_mapKeys_setCap R.ProviderHasCabability (providerNotes R p) p _ "CAA"
    Capability.CanUseCAA h6
  have h8 := nodup_mapKeys_setDoc (providerNotes R p) _ "dual host" Capability.DocDualHost h7
  have h9 := nodup_mapKeys_setDoc (providerNotes R p) _ "create-domains"
    Capability.DocCreateDomains h8
  unfold providerFeatureMap
  simp only []
  split
  · exact nodup_mapKeys_mapStore _ _ _ h9
  · exact nodup_mapKeys_SetSimple _ _ _ _ h9

theorem providerFeatureMap_lookup_none (p k : String)
    (hk : k ∉ featureDefs.map FeatureDef.Name) :
    mapLookup (providerFeatureMap R p) k = none := by
  simp only [featureDefs, List.map, List.mem_cons, List.mem_singleton, List.not_mem_nil,
    or_false, not_or] at hk
  obtain ⟨h1, h2, h3, h4, h5, h6, h7, h8, h9, h10⟩ := hk
  simp only [providerFeatureMap, mapLookup_noPurgeStep, mapLookup_setCap, mapLookup_setDoc,
    mapLookup_SetSimple]
  simp [Ne.symm h1, Ne.symm h2, Ne.symm h3, Ne.symm h4, Ne.symm h5, Ne.symm h6, Ne.symm h7,
    Ne.symm h8, Ne.symm h9, Ne.symm h10, mapLookup]

theorem capBacked_comment (p name : String) (cap : Capability)
    (hf : (name, cap) ∈ capBackedFeatures) (e : DocumentationNote)
    (he : mapLookup (providerFeatureMap R p) name = some e) :
    e.Comment = "" ∨ mapIndex (providerNotes R p) cap = some e := by
  rw [providerFeatureMap_capBacked R p name cap hf] at he
  cases hn : mapIndex (providerNotes R p) cap with
  | some note =>
    simp only [hn] at he
    exact Or.inr he
  | none =>
    simp only [hn] at he
    left
    by_cases hp : R.ProviderHasCabability p cap = true
    · rw [if_pos hp] at he
      rw [← Option.some.inj he]
    · rw [if_neg hp] at he
      exact absurd he (by simp)

theorem providerFeatureMap_comment (p name : String) (e : DocumentationNote)
    (he : mapLookup (providerFeatureMap R p) name = some e) :
    e.Comment = "" ∨
      ∃ cap, (name, cap) ∈ noteBackedFeatures ∧ mapIndex (providerNotes R p) cap = some e := by
  have hname : name ∈ featureDefs.map FeatureDef.Name := by
    by_contra hk
    rw [providerFeatureMap_lookup_none R p name hk] at he
    exact absurd he (by simp)
  simp only [featureDefs, List.map, List.mem_cons, List.mem_singleton, List.not_mem_nil,
    or_false] at hname
  rcases hname with rfl | rfl | rfl | rfl | rfl | rfl | rfl | rfl | rfl | rfl
  · rw [providerFeatureMap_docOnly R p _ Capability.DocOfficiallySupported (by decide)] at he
    exact Or.inr ⟨_, by decide, he⟩
  · rw [providerFeatureMap_Registrar] at he
    exact Or.inl (by rw [← Option.some.inj he])
  · rw [providerFeatureMap_DNSProvider] at he
    exact Or.inl (by rw [← Option.some.inj he])
  · rcases capBacked_comment R p _ Capability.CanUseAlias (by decide) e he with h | h
    · exact Or.inl h
    · exact Or.inr ⟨_, by decide, h⟩
  · rcases capBacked_comment R p _ Capability.CanUseSRV (by decide) e he with h | h
    · exact Or.inl h
    · exact Or.inr ⟨_, by decide, h⟩
  · rcases capBacked_comment R p _ Capability.CanUsePTR (by decide) e he with h | h
    · exact Or.inl h
    · exact Or.inr ⟨_, by decide, h⟩
  · rcases capBacked_comment R p _ Capability.CanUseCAA (by decide) e he with h | h
    · exact Or.inl h
    · exact Or.inr ⟨_, by decide, h⟩
  · rw [providerFeatureMap_docOnly R p _ Capability.DocDualHost (by decide)] at he
    exact Or.inr ⟨_, by decide, he⟩
  · rw [providerFeatureMap_docOnly R p _ Capability.DocCreateDomains (by decide)] at he
    exact Or.inr ⟨_, by decide, he⟩
  · rw [providerFeatureMap_noPurge] at he
    cases hn : mapIndex (providerNotes R p) Capability.CantUseNOPURGE with
    | some note =>
      simp only [hn] at he
      exact Or.inr ⟨_, by decide, hn.trans he⟩
    | none =>
      simp only [hn] at he
      exact Or.inl (by rw [← Option.some.inj he])

end Keys

/-! ## Invariants of every feature map of the matrix -/

section MapInvariants

variable {ρ δ : Type}

/-- C16: in the feature map of every provider of the matrix, every key is the name of
one of the ten entries of `matrix.Features`, no key occurs twice, the keys
`"Registrar"`, `"DNS Provider"` and `"no_purge"` are always present, and so the map has
at least 3 and at most 10 entries. -/
theorem feature_map_keys (R : Registry ρ δ) (p : String) (fm : FeatureMap)
    (h : mapLookup (buildMatrix R).Providers p = some fm) :
    (∀ k ∈ mapKeys fm, k ∈ (buildMatrix R).Features.map FeatureDef.Name) ∧
    (mapKeys fm).Nodup ∧
    "Registrar" ∈ mapKeys fm ∧ "DNS Provider" ∈ mapKeys fm ∧ "no_purge" ∈ mapKeys fm ∧
    3 ≤ fm.length ∧ fm.length ≤ 10 := by
  have hF : (buildMatrix R).Features = featureDefs := by
    unfold buildMatrix
    exact loop_Features R _ _
  rw [buildMatrix_Providers_eq_some R p fm h, hF]
  have hsub : ∀ k ∈ mapKeys (providerFeatureMap R p), k ∈ featureDefs.map FeatureDef.Name := by
    intro k hk
    by_contra hc
    rw [mem_mapKeys_iff_isSome, providerFeatureMap_lookup_none R p k hc] at hk
    exact absurd hk (by simp)
  have hnd := nodup_mapKeys_providerFeatureMap R p
  have hreg : "Registrar" ∈ mapKeys (providerFeatureMap R p) := by
    rw [mem_mapKeys_iff_isSome, providerFeatureMap_Registrar]
    rfl
  have hdns : "DNS Provider" ∈ mapKeys (providerFeatureMap R p) := by
    rw [mem_mapKeys_iff_isSome, providerFeatureMap_DNSProvider]
    rfl
  have hnp : "no_purge" ∈ mapKeys (providerFeatureMap R p) := by
    rw [mem_mapKeys_iff_isSome, providerFeatureMap_noPurge]
    cases mapIndex (providerNotes R p) Capability.CantUseNOPURGE <;> rfl
  have hlen : (providerFeatureMap R p).length = (mapKeys (providerFeatureMap R p)).length := by
    simp [mapKeys]
  refine ⟨hsub, hnd, hreg, hdns, hnp, ?_, ?_⟩
  · have h3 : (["Registrar", "DNS Provider", "no_purge"] : List String).Subperm
        (mapKeys (providerFeatureMap R p)) := by
      refine List.subperm_of_subset (by decide) ?_
      intro k hk
      simp only [List.mem_cons, List.mem_singleton, List.not_mem_nil, or_false] at hk
      rcases hk with rfl | rfl | rfl
      · exact hreg
      · exact hdns
      · exact hnp
    rw [hlen]
    exact h3.length_le
  · have h10 := (List.subperm_of_subset hnd hsub).length_le
    rw [hlen]
    exact h10

/-- Witness of C16: provider `"Bar"` of `sampleRegistry`, whose map has five entries. -/
theorem feature_map_keys_witness :
    (providerFeatureMap sampleRegistry "Bar").length = 5 ∧
    3 ≤ (providerFeatureMap sampleRegistry "Bar").length ∧
    (providerFeatureMap sampleRegistry "Bar").length ≤ 10 :=
  ⟨by decide,
    (feature_map_keys sampleRegistry "Bar" (providerFeatureMap sampleRegistry "Bar")
      (by decide)).2.2.2.2.2⟩

/-- C17: a comment comes from a note only.  In the feature map of every provider `p` of
the matrix, an entry with a non-empty comment stands under the name of a feature that
has an underlying capability, the notes of `p` hold a note for that capability, and the
entry is that note.  So the entries `"Registrar"` and `"DNS Provider"`, and every entry
of a feature for whose capability `p` has no note, have an empty comment. -/
theorem comment_comes_from_note (R : Registry ρ δ) (p : String) (fm : FeatureMap)
    (h : mapLookup (buildMatrix R).Providers p = some fm) (name : String)
    (e : DocumentationNote) (he : mapLookup fm name = some e) :
    (e.Comment ≠ "" →
      ∃ cap, (name, cap) ∈ noteBackedFeatures ∧ mapIndex (providerNotes R p) cap = some e) ∧
    (name = "Registrar" ∨ name = "DNS Provider" → e.Comment = "") ∧
    (∀ cap, (name, cap) ∈ noteBackedFeatures → mapIndex (providerNotes R p) cap = none →
      e.Comment = "") := by
  rw [buildMatrix_Providers_eq_some R p fm h] at he
  have hc := providerFeatureMap_comment R p name e he
  refine ⟨?_, ?_, ?_⟩
  · intro hne
    rcases hc with h1 | h1
    · exact absurd h1 hne
    · exact h1
  · rintro (rfl | rfl)
    · rw [providerFeatureMap_Registrar] at he
      rw [← Option.some.inj he]
    · rw [providerFeatureMap_DNSProvider] at he
      rw [← Option.some.inj he]
  · intro cap hf hn
    rcases hc with h1 | ⟨cap', hf', hn'⟩
    · exact h1
    · have hcap : cap' = cap := by
        simp only [noteBackedFeatures, capBackedFeatures, docOnlyFeatures, List.cons_append,
          List.nil_append, List.mem_cons, List.mem_singleton, Prod.mk.injEq,
          List.not_mem_nil, or_false] at hf hf'
        rcases hf with ⟨rfl, rfl⟩ | ⟨rfl, rfl⟩ | ⟨rfl, rfl⟩ | ⟨rfl, rfl⟩ | ⟨rfl, rfl⟩ |
          ⟨rfl, rfl⟩ | ⟨rfl, rfl⟩ | ⟨rfl, rfl⟩ <;> simp at hf' <;> exact hf'
      rw [hcap, hn] at hn'
      exact absurd hn' (by simp)

/-- Witness of C17: the entry SRV of provider `"Bar"` of `sampleRegistry` has the
comment `planned`, and it is the note of `"Bar"` for `CanUseSRV`. -/
theorem comment_comes_from_note_witness :
    mapLookup (providerFeatureMap sampleRegistry "Bar") "SRV"
      = some { HasFeature := false, Comment := "planned" } ∧
    (∃ cap, ("SRV", cap) ∈ noteBackedFeatures ∧
      mapIndex (providerNotes sampleRegistry "Bar") cap
        = some { HasFeature := false, Comment := "planned" }) ∧
    (mapLookup (providerFeatureMap sampleRegistry "Bar") "Registrar"
        = some { HasFeature := false, Comment := "" } ∧
      ({ HasFeature := false, Comment := "" } : DocumentationNote).Comment = "") :=
  ⟨by decide,
    (comment_comes_from_note sampleRegistry "Bar" (providerFeatureMap sampleRegistry "Bar")
      (by decide) "SRV" { HasFeature := false, Comment := "planned" } (by decide)).1
        (by decide),
    by decide,
    (comment_comes_from_note sampleRegistry "Bar" (providerFeatureMap sampleRegistry "Bar")
      (by decide) "Registrar" { HasFeature := false, Comment := "" } (by decide)).2.1
        (Or.inl rfl)⟩

end MapInvariants

end FeatureMatrixGen
